import Mathlib

/-!
Shallow embedding of the `shorten` program (src/abbrev.rs and
src/shortener.rs).  Rust `&str`/`String` values are modelled as `List Char`;
Rust byte lengths (`str::len`) are recovered through the UTF-8 size of each
character.  Fallible or panicking code paths return `Option`/`Except`:
`none` models a Rust panic.  The regex engine is an external crate, so regex
matching is abstracted as an explicit `reMatch` parameter; no claim below
exercises a regex rule.
-/

namespace Shorten

/-- Rust `char::is_whitespace`: the Unicode White_Space code points. -/
def rustIsWhitespace (c : Char) : Bool :=
  [0x09, 0x0A, 0x0B, 0x0C, 0x0D, 0x20, 0x85, 0xA0, 0x1680,
   0x2000, 0x2001, 0x2002, 0x2003, 0x2004, 0x2005, 0x2006, 0x2007, 0x2008,
   0x2009, 0x200A, 0x2028, 0x2029, 0x202F, 0x205F, 0x3000].contains c.toNat

/-- Rust `char::is_uppercase` (Unicode Lu), restricted to the ASCII and
Latin-1 ranges; every character appearing in the claims is covered exactly. -/
def rustIsUppercase (c : Char) : Bool :=
  decide ((0x41 ≤ c.toNat ∧ c.toNat ≤ 0x5A) ∨
          (0xC0 ≤ c.toNat ∧ c.toNat ≤ 0xD6) ∨
          (0xD8 ≤ c.toNat ∧ c.toNat ≤ 0xDE))

/-- Rust `char::is_lowercase` (Unicode Ll), restricted to the ASCII and
Latin-1 ranges (including U+00B5 and U+00DF); exact on those ranges. -/
def rustIsLowercase (c : Char) : Bool :=
  decide ((0x61 ≤ c.toNat ∧ c.toNat ≤ 0x7A) ∨ c.toNat = 0xB5 ∨
          (0xDF ≤ c.toNat ∧ c.toNat ≤ 0xF6) ∨
          (0xF8 ≤ c.toNat ∧ c.toNat ≤ 0xFF))

/-- Per-character model of Rust `str::to_lowercase`, exact on the ASCII and
Latin-1 ranges and the identity elsewhere. -/
def rustToLowercase (c : Char) : Char :=
  if decide ((0x41 ≤ c.toNat ∧ c.toNat ≤ 0x5A) ∨
             (0xC0 ≤ c.toNat ∧ c.toNat ≤ 0xD6) ∨
             (0xD8 ≤ c.toNat ∧ c.toNat ≤ 0xDE)) then
    Char.ofNat (c.toNat + 0x20)
  else c

/-- Rust `str::len`: the UTF-8 byte length of a string. -/
def byteLen (s : List Char) : Nat := (s.map Char.utf8Size).sum

/-- Rust `str::trim`: strip whitespace from both ends. -/
def trim (s : List Char) : List Char :=
  ((s.dropWhile rustIsWhitespace).reverse.dropWhile rustIsWhitespace).reverse

/-- Worker for `splitWhitespace`; `cur` holds the current token reversed. -/
def swAux : List Char → List Char → List (List Char)
  | [], cur => if cur.isEmpty then [] else [cur.reverse]
  | c :: rest, cur =>
    if rustIsWhitespace c then
      if cur.isEmpty then swAux rest [] else cur.reverse :: swAux rest []
    else swAux rest (c :: cur)

/-- Rust `str::split_whitespace`: maximal runs of non-whitespace characters. -/
def splitWhitespace (s : List Char) : List (List Char) := swAux s []

/-- `itertools` `join(" ")`: interpose a single space between the pieces. -/
def joinSpace : List (List Char) → List Char
  | [] => []
  | [t] => t
  | t :: t2 :: ts => t ++ ' ' :: joinSpace (t2 :: ts)

/-- The parse errors produced by rule compilation (src/abbrev.rs).  The
`regex` crate's own pattern-validity failure is not modelled (external
crate); patterns are stored as text. -/
inductive ParseError where
  | missingSeparator : ParseError
  | unterminatedRegex : ParseError
deriving DecidableEq

/-- A compiled regex as far as this repository observes it: the pattern text
and the case-insensitivity flag handed to `RegexBuilder`. -/
structure RustRegex where
  pattern : List Char
  caseInsensitive : Bool
deriving DecidableEq

inductive AbbrevMatcher where
  | lowercase (key : List Char) : AbbrevMatcher
  | regex (re : RustRegex) : AbbrevMatcher
deriving DecidableEq

/-- One parsed rule (struct `Abbrev` in src/abbrev.rs; the `abbrev` field is
renamed `abbrevText` because `abbrev` is a Lean keyword). -/
structure Abbrev where
  matcher : AbbrevMatcher
  abbrevText : List Char
  title_case_version : Option (List Char)
  attach_to_previous : Bool
deriving DecidableEq

/-- A query answer (struct `Abbreviation` in src/abbrev.rs). -/
structure Abbreviation where
  text : List Char
  attach_to_previous : Bool
deriving DecidableEq

/-- The compiled rule collection (struct `Abbreviator`).  The `HashMap` is
modelled as an association list consulted front-to-back and the `HashSet` as
a duplicate-free list; insertion below preserves the map's last-write-wins
lookup behaviour. -/
structure Abbreviator where
  has_matchers : Bool
  replace_matchers : List (List Char × Abbrev)
  remove_matchers : List (List Char)
  regex_matchers : List Abbrev
deriving DecidableEq

/-- `Abbreviator::default()`: no matchers at all. -/
def Abbreviator.emptyDefault : Abbreviator :=
  { has_matchers := false, replace_matchers := [], remove_matchers := [],
    regex_matchers := [] }

/-- `HashMap::insert`: the new binding shadows any previous one with the same
key (lookup scans front-to-back). -/
def insertReplace (m : List (List Char × Abbrev)) (k : List Char) (v : Abbrev) :
    List (List Char × Abbrev) :=
  (k, v) :: m

/-- `HashSet::insert`. -/
def insertRemove (s : List (List Char)) (k : List Char) : List (List Char) :=
  if k ∈ s then s else k :: s

/-- `HashMap::get`. -/
def lookupReplace : List (List Char × Abbrev) → List Char → Option Abbrev
  | [], _ => none
  | (k, v) :: rest, q => if k = q then some v else lookupReplace rest q

/-- Rust `str::find(t)` combined with `split_at`: the pieces strictly before
and strictly after the first occurrence of `t`. -/
def splitAtFirst (t : Char) : List Char → Option (List Char × List Char)
  | [] => none
  | c :: rest =>
    if c = t then some ([], rest)
    else (splitAtFirst t rest).map (fun p => (c :: p.1, p.2))

/-- `str::strip_prefix("<+")` as used on the replacement side of a rule. -/
def stripAttachMarker (s : List Char) : List Char × Bool :=
  if s.take 2 = ['<', '+'] then (s.drop 2, true) else (s, false)

/-- `u8::make_ascii_uppercase` applied to a single leading byte. -/
def asciiByteUpper (c : Char) : Char :=
  if decide (0x61 ≤ c.toNat ∧ c.toNat ≤ 0x7A) then Char.ofNat (c.toNat - 0x20)
  else c

/-- The `match_case`/`title_case_version` computation of `parse_abbrev`
(src/abbrev.rs:130-146).  The result is `none` for a panic: Rust takes
`title_case[0..1]` by byte index, which panics when the first character of a
lowercase replacement is multi-byte (index 1 is not a char boundary);
otherwise `some` of the optional variant. -/
def titleCaseOrPanic (ab : List Char) : Option (Option (List Char)) :=
  let matchCase :=
    match ab.head? with
    | some c => rustIsLowercase c
    | none => false
  if matchCase then
    match ab with
    | [] => some none
    | c :: rest =>
      if Char.utf8Size c = 1 then some (some (asciiByteUpper c :: rest))
      else none
  else some none

/-- `parse_abbrev` (src/abbrev.rs:118); `none` models the title-case
panic described at `titleCaseOrPanic`. -/
def parse_abbrev (line : List Char) : Option (Except ParseError Abbrev) :=
  match splitAtFirst '=' line with
  | none => some (Except.error ParseError.missingSeparator)
  | some (matcherDef, abbrevPart) =>
    let matcher := trim matcherDef
    let stripped := stripAttachMarker (trim abbrevPart)
    let ab := stripped.1
    let attach := stripped.2
    match titleCaseOrPanic ab with
    | none => none
    | some tcv =>
      if matcher.head? = some '/' then
        match splitAtFirst '/' (matcher.drop 1) with
        | none => some (Except.error ParseError.unterminatedRegex)
        | some (pat, flags) =>
          some (Except.ok
            { matcher := AbbrevMatcher.regex
                { pattern := pat, caseInsensitive := flags.contains 'i' },
              abbrevText := ab, title_case_version := tcv,
              attach_to_previous := attach })
      else
        some (Except.ok
          { matcher := AbbrevMatcher.lowercase (matcher.map rustToLowercase),
            abbrevText := ab, title_case_version := tcv,
            attach_to_previous := attach })

/-- The loop body of `Abbreviator::from_lines` (src/abbrev.rs:21), folded
over the remaining lines with the three accumulating collections. -/
def from_lines_go : List (List Char) → List (List Char × Abbrev) →
    List (List Char) → List Abbrev → Option (Except ParseError Abbreviator)
  | [], replace, remove, regexes =>
    let empty := replace.isEmpty && remove.isEmpty && regexes.isEmpty
    some (Except.ok
      { has_matchers := !empty, replace_matchers := replace,
        remove_matchers := remove, regex_matchers := regexes })
  | rawLine :: rest, replace, remove, regexes =>
    let line := trim rawLine
    if line.isEmpty || line.head? == some '#' then
      from_lines_go rest replace remove regexes
    else
      match parse_abbrev line with
      | none => none
      | some (Except.error e) => some (Except.error e)
      | some (Except.ok ab) =>
        match ab.matcher with
        | AbbrevMatcher.lowercase key =>
          if ab.abbrevText.isEmpty then
            from_lines_go rest replace (insertRemove remove key) regexes
          else
            from_lines_go rest (insertReplace replace key ab) remove regexes
        | AbbrevMatcher.regex _ =>
          from_lines_go rest replace remove (regexes ++ [ab])

/-- `Abbreviator::from_lines`; `none` models a panic during parsing. -/
def Abbreviator.from_lines (lines : List (List Char)) :
    Option (Except ParseError Abbreviator) :=
  from_lines_go lines [] [] []

/-- The query normalization in `Abbreviator::abbreviate` (src/abbrev.rs:68):
lowercase, hyphens to spaces, whitespace runs collapsed by split-and-join. -/
def normalize_query (text : List Char) : List Char :=
  joinSpace (splitWhitespace
    ((text.map rustToLowercase).map (fun c => if c = '-' then ' ' else c)))

/-- `Abbrev::with_matching_case_to` (src/abbrev.rs:109). -/
def Abbrev.with_matching_case_to (ab : Abbrev) (original_text : List Char) :
    Abbreviation :=
  let is_title_case :=
    match original_text.head? with
    | some c => rustIsUppercase c
    | none => false
  match is_title_case, ab.title_case_version with
  | true, some tc => { text := tc, attach_to_previous := ab.attach_to_previous }
  | _, _ => { text := ab.abbrevText, attach_to_previous := ab.attach_to_previous }

/-- The regex scan at the end of `Abbreviator::abbreviate`: first matching
regex rule in registration order wins. -/
def firstRegexAbbrev (reMatch : RustRegex → List Char → Bool)
    (text : List Char) : List Abbrev → Option Abbreviation
  | [] => none
  | ab :: rest =>
    match ab.matcher with
    | AbbrevMatcher.regex re =>
      if reMatch re text then some (ab.with_matching_case_to text)
      else firstRegexAbbrev reMatch text rest
    | AbbrevMatcher.lowercase _ => firstRegexAbbrev reMatch text rest

/-- `Abbreviator::abbreviate` (src/abbrev.rs:63). -/
def Abbreviator.abbreviate (reMatch : RustRegex → List Char → Bool)
    (a : Abbreviator) (text : List Char) : Option Abbreviation :=
  if !a.has_matchers then none
  else
    let lowercase := normalize_query text
    if a.remove_matchers.contains lowercase then
      some { text := [], attach_to_previous := true }
    else
      match lookupReplace a.replace_matchers lowercase with
      | some ab => some (ab.with_matching_case_to text)
      | none => firstRegexAbbrev reMatch text a.regex_matchers

/-- The `Enclosing` trait's `is_opener` (src/shortener.rs:157). -/
def is_opener (c : Char) : Bool :=
  ['(', '[', Char.ofNat 0x7B, '<', '"', '*'].contains c

/-- The `Enclosing` trait's `is_closer` (src/shortener.rs:163). -/
def is_closer (c : Char) : Bool :=
  [')', ']', Char.ofNat 0x7D, '>', '"', '*'].contains c

/-- Struct `EnclosedWord` (src/shortener.rs:171). -/
structure EnclosedWord where
  word : List Char
  openers : List Char
  closers : List Char
deriving DecidableEq

/-- `EnclosedWord::is_enclosed`. -/
def EnclosedWord.is_enclosed (e : EnclosedWord) : Bool :=
  !e.openers.isEmpty || !e.closers.isEmpty

/-- `process_enclosed_word` (src/shortener.rs:183).  Rust slices
`input[opener_len .. len - closer_len]` by byte index; when a character is
counted by both the opener run and the closer run the bounds cross and the
slice panics (e.g. for the token `*`), modelled as `none`.  The opener and
closer characters are all ASCII, so on the non-panicking side char indices
and byte indices coincide. -/
def process_enclosed_word (input : List Char) : Option EnclosedWord :=
  let opener_len := (input.takeWhile is_opener).length
  let closer_len := (input.reverse.takeWhile is_closer).length
  if opener_len + closer_len ≤ input.length then
    some { word := (input.take (input.length - closer_len)).drop opener_len,
           openers := input.take opener_len,
           closers := input.drop (input.length - closer_len) }
  else none

/-- `AddWithSpace::add_with_space` for `String` (src/shortener.rs:123). -/
def add_with_space (acc s : List Char) : List Char :=
  if s.isEmpty then acc
  else
    let lastIsOpener :=
      match acc.getLast? with
      | some c => is_opener c
      | none => false
    if !lastIsOpener && !acc.isEmpty then acc ++ ' ' :: s
    else acc ++ s

/-- `AddWithSpace::add_abbrev` for `String` (src/shortener.rs:139). -/
def add_abbrev (acc : List Char) (ab : Abbreviation) : List Char :=
  if ab.text.isEmpty then acc
  else if ab.attach_to_previous then acc ++ ab.text
  else add_with_space acc ab.text

/-- Struct `Shortener` (src/shortener.rs:6); `Shortener::with_abbreviator`
only wraps these two fields. -/
structure Shortener where
  desired_max_length : Nat
  abbreviator : Abbreviator

/-- `Shortener::attempt_abbrev` (src/shortener.rs:102): `some` exactly when
a rule matched, carrying the updated output buffer. -/
def Shortener.attempt_abbrev (reMatch : RustRegex → List Char → Bool)
    (s : Shortener) (acc text : List Char) : Option (List Char) :=
  (s.abbreviator.abbreviate reMatch text).map (add_abbrev acc)

/-- `Shortener::abbrev_or_add` (src/shortener.rs:109). -/
def Shortener.abbrev_or_add (reMatch : RustRegex → List Char → Bool)
    (s : Shortener) (acc text : List Char) : List Char :=
  match s.abbreviator.abbreviate reMatch text with
  | some ab => add_abbrev acc ab
  | none => add_with_space acc text

/-- The word loop of `Shortener::shorten` (src/shortener.rs:49-97), with the
look-behind word `prev` and the output buffer `acc` made explicit; `none`
models a panic inside `process_enclosed_word`. -/
def Shortener.shortenLoop (reMatch : RustRegex → List Char → Bool)
    (s : Shortener) : List (List Char) → Option (List Char) → List Char →
    Option (List Char)
  | [], prev, acc =>
    some (match prev with
          | some w => s.abbrev_or_add reMatch acc w
          | none => acc)
  | word :: rest, prev, acc =>
    match process_enclosed_word word with
    | none => none
    | some enclosed =>
      if enclosed.is_enclosed then
        let acc1 :=
          match prev with
          | some w => s.abbrev_or_add reMatch acc w
          | none => acc
        match s.attempt_abbrev reMatch acc1 word with
        | some acc2 => Shortener.shortenLoop reMatch s rest none acc2
        | none =>
          match s.abbreviator.abbreviate reMatch enclosed.word with
          | some ab =>
            if !ab.text.isEmpty then
              Shortener.shortenLoop reMatch s rest none
                (add_abbrev (add_with_space acc1 enclosed.openers) ab
                  ++ enclosed.closers)
            else
              Shortener.shortenLoop reMatch s rest none acc1
          | none =>
            Shortener.shortenLoop reMatch s rest none
              (s.abbrev_or_add reMatch (add_with_space acc1 enclosed.openers)
                enclosed.word ++ enclosed.closers)
      else
        match prev with
        | none => Shortener.shortenLoop reMatch s rest (some word) acc
        | some pw =>
          match s.attempt_abbrev reMatch acc (pw ++ ' ' :: word) with
          | some acc2 => Shortener.shortenLoop reMatch s rest none acc2
          | none =>
            Shortener.shortenLoop reMatch s rest (some word)
              (s.abbrev_or_add reMatch acc pw)

/-- `Shortener::shorten` (src/shortener.rs:36).  The Rust function returns a
`Cow`; the borrowed/owned distinction is a performance choice with no
observable string difference, so the model returns the string itself, and
`none` models a panic. -/
def Shortener.shorten (reMatch : RustRegex → List Char → Bool)
    (s : Shortener) (text : List Char) : Option (List Char) :=
  if byteLen text ≤ s.desired_max_length then some text
  else if byteLen (trim text) ≤ s.desired_max_length then some (trim text)
  else Shortener.shortenLoop reMatch s (splitWhitespace (trim text)) none []

/-- A regex-match oracle for rule sets that contain no regex rules: the
result of `shorten`/`abbreviate` on such sets does not depend on it. -/
def noRegexMatch : RustRegex → List Char → Bool := fun _ _ => false

/-- The abbreviator compiled from a line list, when compilation succeeds
(all the concrete rule sets below compile; the accompanying theorems pin
this down with an explicit `from_lines` equation). -/
def compiled (lines : List String) : Abbreviator :=
  match Abbreviator.from_lines (lines.map String.data) with
  | some (Except.ok a) => a
  | _ => Abbreviator.emptyDefault

/-- Rule lines for the case-preservation claims: one lowercase replacement. -/
def rulesCase : List String := ["architecture = arch"]

/-- Rule lines with a replacement that does not start lowercase. -/
def rulesWeekly : List String := ["Weekly = 毎週"]

/-- A remove rule followed by a replace rule for the same normalized key. -/
def rulesRemoveThenReplace : List String := ["foo =", "foo = f"]

/-- A replace rule followed by a remove rule for the same normalized key. -/
def rulesReplaceThenRemove : List String := ["foo = f", "foo ="]

/-- Two replace rules for the same normalized key. -/
def rulesReplaceTwice : List String := ["foo = a", "foo = b"]

/-- A bracket-specific literal rule next to a plain literal rule. -/
def rulesEnclosed : List String := ["[Monthly] = [M]", "Weekly = 毎週"]

/-- A single deletion (empty-replacement) rule. -/
def rulesDelete : List String := ["Meeeting ="]

/-- The rule set of the end-to-end example. -/
def rulesEndToEnd : List String :=
  ["Architecture=arch", "Learning=learn", "Session=sesn", "Section=<+課"]

/-- A single literal rule whose matcher contains a hyphen. -/
def rulesHyphen : List String := ["foo-bar = fb"]

/-- The output `shorten` assembles when no abbreviation rule matches any
token: each token is reassembled unchanged (`openers ++ word ++ closers`)
and appended through `add_with_space`; `none` when a token makes
`process_enclosed_word` panic.  Used to state the amended whitespace
claim. -/
def rebuildTokens : List Char → List (List Char) → Option (List Char)
  | acc, [] => some acc
  | acc, tok :: rest =>
    match process_enclosed_word tok with
    | none => none
    | some e =>
      if e.is_enclosed then
        rebuildTokens (add_with_space (add_with_space acc e.openers) e.word
          ++ e.closers) rest
      else
        rebuildTokens (add_with_space acc tok) rest

/-- Claim C1 (code bug): the spec says `shorten` is total over all text
inputs, but on an over-length line containing the token `*` — a character
that is both an opener and a closer, so the opener and closer runs overlap —
`process_enclosed_word` panics on the crossing slice bounds; here the model
of that panic is reached. -/
theorem c1_shorten_panics_on_star_token :
    Shortener.shorten noRegexMatch ⟨0, Abbreviator.emptyDefault⟩ "*".data =
      none := rfl

/-- Claim C2 counterexample: an input of six characters (under the max of
ten) but fourteen UTF-8 bytes is rewritten — the run of two spaces collapses
— so identity below a character-count threshold fails. -/
theorem c2_char_count_counterexample :
    "毎週  毎週".data.length ≤ 10 ∧
    Shortener.shorten noRegexMatch ⟨10, Abbreviator.emptyDefault⟩
      "毎週  毎週".data ≠ some "毎週  毎週".data := by
  exact ⟨by decide, by decide⟩

/-- Claim C2 (amended): identity below threshold holds with the length
measured as a UTF-8 byte count (Rust `str::len`), leading and trailing
whitespace included: whenever `byteLen text` is at most the configured max,
`shorten` returns the input unchanged. -/
theorem c2_identity_below_byte_threshold
    (reMatch : RustRegex → List Char → Bool) (s : Shortener)
    (text : List Char) (h : byteLen text ≤ s.desired_max_length) :
    Shortener.shorten reMatch s text = some text := by
  unfold Shortener.shorten
  rw [if_pos h]

/-- Witness for the amended C2 theorem at a concrete input. -/
theorem c2_identity_below_byte_threshold_witness :
    byteLen "abc".data ≤ 5 ∧
    Shortener.shorten noRegexMatch ⟨5, Abbreviator.emptyDefault⟩ "abc".data =
      some "abc".data :=
  ⟨by decide, c2_identity_below_byte_threshold noRegexMatch
    ⟨5, Abbreviator.emptyDefault⟩ "abc".data (by decide)⟩

/-- Claim C3 counterexample: the literal matcher `foo-bar` is only
lowercased at load time, while the query side also turns hyphens into
spaces, so the rule never matches — not even its own original matcher
text. -/
theorem c3_hyphen_matcher_counterexample :
    Abbreviator.from_lines (rulesHyphen.map String.data) =
      some (Except.ok (compiled rulesHyphen)) ∧
    (compiled rulesHyphen).has_matchers = true ∧
    (compiled rulesHyphen).abbreviate noRegexMatch "foo-bar".data = none :=
  ⟨rfl, rfl, rfl⟩

/-- Claim C4 counterexample: with the rule `architecture = arch`, the input
`ARCHITECTURE` yields the capitalized variant `Arch`, not `arch` as the
claim states — case adaptation inspects only the first character. -/
theorem c4_all_caps_counterexample :
    Abbreviator.from_lines (rulesCase.map String.data) =
      some (Except.ok (compiled rulesCase)) ∧
    (compiled rulesCase).abbreviate noRegexMatch "ARCHITECTURE".data =
      some { text := "Arch".data, attach_to_previous := false } ∧
    "Arch".data ≠ "arch".data :=
  ⟨rfl, rfl, by decide⟩

/-- Claim C4 (amended): with rule `architecture = arch`, any input whose
first character is uppercase — `Architecture` and also `ARCHITECTURE` —
yields the capitalized variant `Arch`, while `architecture` yields `arch`;
with rule `Weekly = 毎週` (replacement not starting lowercase, hence no
variant), `Weekly` yields `毎週`. -/
theorem c4_case_preservation_amended :
    (compiled rulesCase).abbreviate noRegexMatch "Architecture".data =
      some { text := "Arch".data, attach_to_previous := false } ∧
    (compiled rulesCase).abbreviate noRegexMatch "ARCHITECTURE".data =
      some { text := "Arch".data, attach_to_previous := false } ∧
    (compiled rulesCase).abbreviate noRegexMatch "architecture".data =
      some { text := "arch".data, attach_to_previous := false } ∧
    (compiled rulesWeekly).abbreviate noRegexMatch "Weekly".data =
      some { text := "毎週".data, attach_to_previous := false } :=
  ⟨rfl, rfl, rfl, rfl⟩

/-- Claim C5 counterexample: with a remove rule and a later replace rule for
the same key `foo`, the replace rule is present in the replace-map, yet a
lookup returns the remove result (empty text, attach-to-previous) — the
remove-set is consulted before the replace-map, and the last-loaded rule
does not win. -/
theorem c5_priority_counterexample :
    Abbreviator.from_lines (rulesRemoveThenReplace.map String.data) =
      some (Except.ok (compiled rulesRemoveThenReplace)) ∧
    (lookupReplace (compiled rulesRemoveThenReplace).replace_matchers
      "foo".data).isSome = true ∧
    (compiled rulesRemoveThenReplace).abbreviate noRegexMatch "foo".data =
      some { text := [], attach_to_previous := true } :=
  ⟨rfl, rfl, rfl⟩

/-- Claim C5 (amended): lookup priority is remove-set first, then
replace-map, then the regex list; a key present in both the remove-set and
the replace-map yields the remove (empty, attach-to-previous) abbreviation
regardless of load order, and only among replace rules for the same key does
the last-loaded rule win. -/
theorem c5_priority_amended :
    (compiled rulesRemoveThenReplace).abbreviate noRegexMatch "foo".data =
      some { text := [], attach_to_previous := true } ∧
    (compiled rulesReplaceThenRemove).abbreviate noRegexMatch "foo".data =
      some { text := [], attach_to_previous := true } ∧
    (compiled rulesReplaceTwice).abbreviate noRegexMatch "foo".data =
      some { text := "b".data, attach_to_previous := false } :=
  ⟨rfl, rfl, rfl⟩

/-- Claim C6 (code bug): the spec says compilation is total apart from
`ParseError`, but for a rule whose replacement starts with a lowercase
multi-byte character (here `ü`), deriving the title-case variant takes the
byte slice `title_case[0..1]`, whose end is not a character boundary — Rust
panics; here the model of that panic is reached. -/
theorem c6_compile_panics_on_multibyte_lowercase :
    Abbreviator.from_lines ["x = über".data] = none := rfl

/-- Claim C7: for an over-length line, an enclosed token is first tried
whole (so `[Monthly]` hits the bracket-specific rule `[Monthly] = [M]`), and
only on a miss is the inner core tried with the punctuation reattached (so
`[Weekly]` with rule `Weekly = 毎週` becomes `[毎週]`). -/
theorem c7_enclosed_match_order :
    Abbreviator.from_lines (rulesEnclosed.map String.data) =
      some (Except.ok (compiled rulesEnclosed)) ∧
    Shortener.shorten noRegexMatch ⟨5, compiled rulesEnclosed⟩
      "[Monthly]".data = some "[M]".data ∧
    Shortener.shorten noRegexMatch ⟨5, compiled rulesEnclosed⟩
      "[Weekly]".data = some "[毎週]".data :=
  ⟨rfl, rfl, rfl⟩

/-- Claim C8: a matched remove rule (`Meeeting =`) contributes nothing to
the output — the over-length input ending in `All Hands Meeeting` yields
exactly `All Hands`, with no trailing space — and when the deleted word is
enclosed (`*Meeeting*`) the enclosure vanishes with it. -/
theorem c8_deletion_leaves_no_residue :
    Shortener.shorten noRegexMatch ⟨10, compiled rulesDelete⟩
      "All Hands Meeeting".data = some "All Hands".data ∧
    Shortener.shorten noRegexMatch ⟨10, compiled rulesDelete⟩
      "All Hands *Meeeting*".data = some "All Hands".data :=
  ⟨rfl, rfl⟩

/-- Claim C9: the end-to-end example — max length 10, rules
`Architecture=arch`, `Learning=learn`, `Session=sesn`, `Section=<+課`,
input `Architecture Section Learning Session` — produces exactly
`Arch課 Learn Sesn`. -/
theorem c9_end_to_end_example :
    Abbreviator.from_lines (rulesEndToEnd.map String.data) =
      some (Except.ok (compiled rulesEndToEnd)) ∧
    Shortener.shorten noRegexMatch ⟨10, compiled rulesEndToEnd⟩
      "Architecture Section Learning Session".data =
      some "Arch課 Learn Sesn".data :=
  ⟨rfl, rfl⟩

/-- Claim C10 counterexample: on the over-length input `((( a` with no rules
at all, the rewritten output is `(((a` — the token ending in an opener
swallows the following separator — so the output is not the whitespace-split
tokens joined by single spaces. -/
theorem c10_single_space_counterexample :
    Shortener.shorten noRegexMatch ⟨3, Abbreviator.emptyDefault⟩
      "((( a".data = some "(((a".data ∧
    "(((a".data ≠ joinSpace (splitWhitespace (trim "((( a".data)) :=
  ⟨rfl, by decide⟩

theorem byteLen_cons (c : Char) (l : List Char) :
    byteLen (c :: l) = c.utf8Size + byteLen l := by
  simp [byteLen]

theorem byteLen_dropWhile_le (p : Char → Bool) (l : List Char) :
    byteLen (l.dropWhile p) ≤ byteLen l := by
  induction l with
  | nil => exact Nat.le_refl _
  | cons c rest ih =>
    rw [List.dropWhile_cons]
    by_cases hp : p c
    · simp only [hp, if_true]
      exact Nat.le_trans ih (by rw [byteLen_cons]; exact Nat.le_add_left _ _)
    · simp [hp]

theorem byteLen_reverse (l : List Char) : byteLen l.reverse = byteLen l := by
  simp [byteLen, List.sum_reverse]

theorem byteLen_trim_le (l : List Char) : byteLen (trim l) ≤ byteLen l := by
  unfold trim
  rw [byteLen_reverse]
  exact Nat.le_trans (byteLen_dropWhile_le _ _)
    (by rw [byteLen_reverse]; exact byteLen_dropWhile_le _ _)

theorem abbreviate_emptyDefault (reMatch : RustRegex → List Char → Bool)
    (t : List Char) :
    Abbreviator.emptyDefault.abbreviate reMatch t = none := rfl

theorem abbrev_or_add_emptyDefault (reMatch : RustRegex → List Char → Bool)
    (max : Nat) (acc t : List Char) :
    Shortener.abbrev_or_add reMatch ⟨max, Abbreviator.emptyDefault⟩ acc t =
      add_with_space acc t := rfl

theorem attempt_abbrev_emptyDefault (reMatch : RustRegex → List Char → Bool)
    (max : Nat) (acc t : List Char) :
    Shortener.attempt_abbrev reMatch ⟨max, Abbreviator.emptyDefault⟩ acc t =
      none := rfl

theorem shortenLoop_flush (reMatch : RustRegex → List Char → Bool)
    (max : Nat) (ws : List (List Char)) (p acc : List Char) :
    Shortener.shortenLoop reMatch ⟨max, Abbreviator.emptyDefault⟩ ws
        (some p) acc =
      Shortener.shortenLoop reMatch ⟨max, Abbreviator.emptyDefault⟩ ws
        none (add_with_space acc p) := by
  cases ws with
  | nil =>
    simp [Shortener.shortenLoop, abbrev_or_add_emptyDefault]
  | cons w rest =>
    simp only [Shortener.shortenLoop]
    cases hw : process_enclosed_word w with
    | none => rfl
    | some e =>
      by_cases he : e.is_enclosed
      · simp [he, abbrev_or_add_emptyDefault, attempt_abbrev_emptyDefault,
          abbreviate_emptyDefault]
      · simp [he, abbrev_or_add_emptyDefault, attempt_abbrev_emptyDefault]

theorem shortenLoop_none_eq_rebuild (reMatch : RustRegex → List Char → Bool)
    (max : Nat) (ws : List (List Char)) (acc : List Char) :
    Shortener.shortenLoop reMatch ⟨max, Abbreviator.emptyDefault⟩ ws
        none acc = rebuildTokens acc ws := by
  induction ws generalizing acc with
  | nil => rfl
  | cons w rest ih =>
    simp only [Shortener.shortenLoop, rebuildTokens]
    cases hw : process_enclosed_word w with
    | none => rfl
    | some e =>
      by_cases he : e.is_enclosed
      · simp only [he, if_true, attempt_abbrev_emptyDefault,
          abbreviate_emptyDefault, abbrev_or_add_emptyDefault]
        exact ih _
      · simp only [he, if_false, Bool.false_eq_true]
        rw [shortenLoop_flush]
        exact ih _

/-- Claim C10 (amended): for every input whose trimmed form is still longer
than the max (in bytes), with no abbreviation rule at all, the output is
rebuilt from the whitespace-split tokens of the trimmed input — each token
reassembled unchanged and appended through the spacing rules
(`rebuildTokens`): a single space separator, except that no space follows
output ending in an opener character and none precedes an empty piece, so
internal whitespace runs collapse to at most one space and the output can
differ from the input even though no rule applied; a token whose opener and
closer runs overlap panics instead. -/
theorem c10_whitespace_collapse_amended
    (reMatch : RustRegex → List Char → Bool) (max : Nat) (text : List Char)
    (h : max < byteLen (trim text)) :
    Shortener.shorten reMatch ⟨max, Abbreviator.emptyDefault⟩ text =
      rebuildTokens [] (splitWhitespace (trim text)) := by
  have h1 : ¬ byteLen text ≤ max :=
    Nat.not_le.mpr (Nat.lt_of_lt_of_le h (byteLen_trim_le text))
  unfold Shortener.shorten
  rw [if_neg h1, if_neg (Nat.not_le.mpr h)]
  exact shortenLoop_none_eq_rebuild reMatch max _ _

/-- Witness for the amended C10 theorem at a concrete input. -/
theorem c10_whitespace_collapse_amended_witness :
    3 < byteLen (trim "((  a".data) ∧
    Shortener.shorten noRegexMatch ⟨3, Abbreviator.emptyDefault⟩
      "((  a".data = rebuildTokens [] (splitWhitespace (trim "((  a".data)) :=
  ⟨by decide, c10_whitespace_collapse_amended noRegexMatch 3 "((  a".data
    (by decide)⟩

theorem dropWhile_eq_self_of_none (p : Char → Bool) (l : List Char)
    (h : ∀ c ∈ l, p c = false) : l.dropWhile p = l := by
  cases l with
  | nil => rfl
  | cons c rest =>
    rw [List.dropWhile_cons, if_neg]
    simp [h c (by simp)]

theorem trim_eq_self (l : List Char)
    (h : ∀ c ∈ l, rustIsWhitespace c = false) : trim l = l := by
  unfold trim
  rw [dropWhile_eq_self_of_none _ _ h,
    dropWhile_eq_self_of_none _ _ (fun c hc => h c (List.mem_reverse.mp hc)),
    List.reverse_reverse]

theorem splitAtFirst_append (t : Char) (m rest : List Char)
    (h : ∀ c ∈ m, c ≠ t) :
    splitAtFirst t (m ++ t :: rest) = some (m, rest) := by
  induction m with
  | nil => simp [splitAtFirst]
  | cons c m ih =>
    show (if c = t then some ([], m ++ t :: rest)
      else (splitAtFirst t (m ++ t :: rest)).map
        (fun p => (c :: p.1, p.2))) = some (c :: m, rest)
    rw [if_neg (h c (by simp)), ih (fun d hd => h d (by simp [hd]))]
    rfl

theorem stripAttachMarker_of_no_marker (ab : List Char)
    (h : ab.head? ≠ some '<') : stripAttachMarker ab = (ab, false) := by
  unfold stripAttachMarker
  rw [if_neg]
  intro hc
  cases ab with
  | nil => simp at hc
  | cons d ab' =>
    have hc' : d :: List.take 1 ab' = ['<', '+'] := hc
    injection hc' with h1 _
    exact h (by simp [h1])

theorem titleCaseOrPanic_nil : titleCaseOrPanic [] = some none := rfl

theorem titleCaseOrPanic_not_lower (d : Char) (ab' : List Char)
    (hd : rustIsLowercase d = false) :
    titleCaseOrPanic (d :: ab') = some none := by
  simp [titleCaseOrPanic, hd]

theorem titleCaseOrPanic_lower_ascii (d : Char) (ab' : List Char)
    (hd : rustIsLowercase d = true) (hsz : Char.utf8Size d = 1) :
    titleCaseOrPanic (d :: ab') = some (some (asciiByteUpper d :: ab')) := by
  simp [titleCaseOrPanic, hd, hsz]

theorem parse_abbrev_literal (m ab : List Char)
    (hmw : ∀ c ∈ m, rustIsWhitespace c = false)
    (hmeq : ∀ c ∈ m, c ≠ '=')
    (hmslash : m.head? ≠ some '/')
    (habw : ∀ c ∈ ab, rustIsWhitespace c = false)
    (hablt : ab.head? ≠ some '<')
    (htitle : ∀ c, ab.head? = some c → rustIsLowercase c = true →
      Char.utf8Size c = 1) :
    ∃ tcv, parse_abbrev (m ++ '=' :: ab) = some (Except.ok
      { matcher := AbbrevMatcher.lowercase (m.map rustToLowercase),
        abbrevText := ab, title_case_version := tcv,
        attach_to_previous := false }) := by
  unfold parse_abbrev
  rw [splitAtFirst_append '=' m ab hmeq]
  dsimp only
  rw [trim_eq_self m hmw, trim_eq_self ab habw,
    stripAttachMarker_of_no_marker ab hablt]
  dsimp only
  cases ab with
  | nil =>
    rw [titleCaseOrPanic_nil]
    exact ⟨none, by dsimp only; rw [if_neg hmslash]⟩
  | cons d ab' =>
    by_cases hd : rustIsLowercase d = true
    · have hsz : Char.utf8Size d = 1 := htitle d rfl hd
      rw [titleCaseOrPanic_lower_ascii d ab' hd hsz]
      exact ⟨some (asciiByteUpper d :: ab'), by dsimp only; rw [if_neg hmslash]⟩
    · rw [titleCaseOrPanic_not_lower d ab' (eq_false_of_ne_true hd)]
      exact ⟨none, by dsimp only; rw [if_neg hmslash]⟩

/-- Claim C3 (amended): literal matchers are only lowercased before
indexing, not hyphen- or whitespace-normalized, so lookup is
normalization-symmetric exactly for matchers whose lowercased text is
already in query-normal form.  For a literal rule `m = ab` whose matcher
`m` contains no whitespace and no `=`, does not begin with `/` or `#`, and
whose lowercased form is unchanged by the query normalization (in
particular `m` has no hyphen and no internal whitespace run), and whose
replacement `ab` is whitespace-free, does not begin with `<`, and does not
begin with a lowercase multi-byte character (which would panic the
compiler), compilation succeeds and `abbreviate` applied to the matcher's
own original text returns a match; a hyphenated or multi-space matcher, by
contrast, is never matched, not even by its own text. -/
theorem c3_normalization_amended
    (reMatch : RustRegex → List Char → Bool) (m ab : List Char)
    (hm : m ≠ [])
    (hmw : ∀ c ∈ m, rustIsWhitespace c = false)
    (hmeq : ∀ c ∈ m, c ≠ '=')
    (hmslash : m.head? ≠ some '/')
    (hmhash : m.head? ≠ some '#')
    (habw : ∀ c ∈ ab, rustIsWhitespace c = false)
    (hablt : ab.head? ≠ some '<')
    (htitle : ∀ c, ab.head? = some c → rustIsLowercase c = true →
      Char.utf8Size c = 1)
    (hnorm : normalize_query m = m.map rustToLowercase) :
    ∃ A : Abbreviator,
      Abbreviator.from_lines [m ++ '=' :: ab] = some (Except.ok A) ∧
      (A.abbreviate reMatch m).isSome = true := by
  obtain ⟨tcv, hparse⟩ :=
    parse_abbrev_literal m ab hmw hmeq hmslash habw hablt htitle
  have hL : trim (m ++ '=' :: ab) = m ++ '=' :: ab := by
    refine trim_eq_self _ ?_
    intro c hc
    rcases List.mem_append.mp hc with h1 | h2
    · exact hmw c h1
    · rcases List.mem_cons.mp h2 with rfl | h3
      · decide
      · exact habw c h3
  obtain ⟨c0, m', rfl⟩ := List.exists_cons_of_ne_nil hm
  have hc0 : c0 ≠ '#' := fun hc => hmhash (by simp [hc])
  by_cases hab : ab = []
  · subst hab
    refine ⟨{ has_matchers := true, replace_matchers := [],
              remove_matchers := [(c0 :: m').map rustToLowercase],
              regex_matchers := [] }, ?_, ?_⟩
    · unfold Abbreviator.from_lines
      simp only [from_lines_go]
      rw [hL]
      simp only [List.cons_append, List.isEmpty_cons, List.head?_cons,
        Bool.false_or]
      rw [if_neg (by simp [hc0])]
      rw [← List.cons_append, hparse]
      simp [insertRemove, from_lines_go]
    · unfold Abbreviator.abbreviate
      rw [hnorm]
      simp
  · refine ⟨{ has_matchers := true,
              replace_matchers := [((c0 :: m').map rustToLowercase,
                { matcher :=
                    AbbrevMatcher.lowercase ((c0 :: m').map rustToLowercase),
                  abbrevText := ab, title_case_version := tcv,
                  attach_to_previous := false })],
              remove_matchers := [], regex_matchers := [] }, ?_, ?_⟩
    · unfold Abbreviator.from_lines
      simp only [from_lines_go]
      rw [hL]
      simp only [List.cons_append, List.isEmpty_cons, List.head?_cons,
        Bool.false_or]
      rw [if_neg (by simp [hc0])]
      rw [← List.cons_append, hparse]
      simp [insertReplace, from_lines_go, hab]
    · unfold Abbreviator.abbreviate
      rw [hnorm]
      simp [lookupReplace]

/-- Witness for the amended C3 theorem at the concrete rule
`session = sesn`. -/
theorem c3_normalization_amended_witness :
    ∃ A : Abbreviator,
      Abbreviator.from_lines ["session".data ++ '=' :: "sesn".data] =
        some (Except.ok A) ∧
      (A.abbreviate noRegexMatch "session".data).isSome = true :=
  c3_normalization_amended noRegexMatch "session".data "sesn".data
    (by decide) (by decide) (by decide) (by decide) (by decide) (by decide)
    (by decide)
    (by intro c hc hl
        injection hc with h
        subst h
        decide)
    (by decide)

end Shorten
